import Mathlib

/-!
Verification of the IFBYCB market-data pipeline (sovereign yield curves and
CDS 5Y spreads) against its natural-language specification.

The JavaScript sources are embedded shallowly:
* documents (HTML/CSV text) are `List Char`;
* numeric values are `ℚ` (the JS numbers flowing through these parsers are
  decimal literals captured by regexes, which ℚ represents exactly);
* `fetch` results are oracle parameters (`Except Unit (List Char)`:
  `.error` = the fetch threw or returned a non-success status);
* the current date is a `Civil` (y/m/d) parameter;
* JS operations that can raise are modelled in `Except JsErr`.
-/

namespace Spec2Proof

/-! ## Basic character / string utilities (ASCII, as used by the sources) -/

def toLowerC (c : Char) : Char :=
  if 'A' ≤ c ∧ c ≤ 'Z' then Char.ofNat (c.toNat + 32) else c

def toUpperC (c : Char) : Char :=
  if 'a' ≤ c ∧ c ≤ 'z' then Char.ofNat (c.toNat - 32) else c

def jsToLower (s : String) : String := String.mk (s.toList.map toLowerC)

def jsToUpper (s : String) : String := String.mk (s.toList.map toUpperC)

def isDigitC (c : Char) : Bool := '0' ≤ c ∧ c ≤ '9'

/-- JS `\s` on the ASCII range. -/
def isWsC (c : Char) : Bool := c = ' ' ∨ c = '\t' ∨ c = '\n' ∨ c = '\r'

def dropWs : List Char → List Char
  | [] => []
  | c :: cs => if isWsC c then dropWs cs else c :: cs

/-- Longest digit run at the head of the list, and the remainder. -/
def takeDigits : List Char → List Char × List Char
  | [] => ([], [])
  | c :: cs =>
    if isDigitC c then
      let (ds, rest) := takeDigits cs
      (c :: ds, rest)
    else ([], c :: cs)

/-- First index at which `needle` occurs in `hay` (JS `String.indexOf`). -/
def indexOfSub (hay needle : List Char) : Option Nat :=
  match hay with
  | [] => if needle = [] then some 0 else none
  | _ :: t =>
    if needle.isPrefixOf hay then some 0
    else (indexOfSub t needle).map (· + 1)

/-- JS `String.slice(start, stop)` on an in-range pair. -/
def jsSlice (l : List Char) (start stop : Nat) : List Char :=
  (l.drop start).take (stop - start)

/-- Replace the first occurrence of `a` by `b` (JS `String.replace(",", ".")`). -/
def replaceFirst (a b : Char) : List Char → List Char
  | [] => []
  | c :: cs => if c = a then b :: cs else c :: replaceFirst a b cs

/-- Natural number denoted by a digit run (most significant first). -/
def digitsVal (l : List Char) : Nat :=
  l.foldl (fun acc c => 10 * acc + (c.toNat - 48)) 0

/-- Model of JS `parseFloat` restricted to the shapes captured by the
    sources' regexes: digits, an optional `.` and more digits; any trailing
    junk is ignored, and `none` models `NaN` (no leading digits or dot). -/
def jsParseFloat (l : List Char) : Option ℚ :=
  let (ip, rest) := takeDigits l
  let (fp, _) :=
    match rest with
    | '.' :: r => takeDigits r
    | _ => (([] : List Char), rest)
  if ip = [] ∧ fp = [] then none
  else some ((digitsVal ip : ℚ) + (digitsVal fp : ℚ) / ((10 : ℚ) ^ fp.length))

/-! ## Civil dates and the `YYYY-MM-DD` stamps (`todayISO` / `isoToday`)

`new Date().toISOString().slice(0, 10)` is modelled by formatting the
current civil date, which is a parameter of the embedded handlers. -/

structure Civil where
  y : Nat
  m : Nat
  d : Nat
deriving DecidableEq, Repr

/-- The dates a JS runtime clock can actually produce for `toISOString`'s
    plain 4-digit-year regime. -/
def Civil.Valid (c : Civil) : Prop :=
  1000 ≤ c.y ∧ c.y ≤ 9999 ∧ 1 ≤ c.m ∧ c.m ≤ 12 ∧ 1 ≤ c.d ∧ c.d ≤ 31

instance (c : Civil) : Decidable c.Valid := by unfold Civil.Valid; infer_instance

def digitChar (k : Nat) : Char :=
  match k with
  | 0 => '0' | 1 => '1' | 2 => '2' | 3 => '3' | 4 => '4'
  | 5 => '5' | 6 => '6' | 7 => '7' | 8 => '8' | _ => '9'

def pad2 (n : Nat) : List Char := [digitChar ((n / 10) % 10), digitChar (n % 10)]

def pad4 (n : Nat) : List Char :=
  [digitChar ((n / 1000) % 10), digitChar ((n / 100) % 10),
   digitChar ((n / 10) % 10), digitChar (n % 10)]

def isoFmtC (c : Civil) : List Char :=
  pad4 c.y ++ '-' :: (pad2 c.m ++ '-' :: pad2 c.d)

/-- The `todayISO` of market.js / `isoToday` of the other revisions. -/
def isoToday (c : Civil) : String := String.mk (isoFmtC c)

def charVal (c : Char) : Nat := c.toNat - 48

/-- A well-formed `YYYY-MM-DD` date string: ten characters, digits and
    dashes in the right places, month in 1..12 and day in 1..31. -/
def wellFormedIsoL : List Char → Bool
  | [y1, y2, y3, y4, s1, m1, m2, s2, d1, d2] =>
    isDigitC y1 && isDigitC y2 && isDigitC y3 && isDigitC y4 &&
    (s1 = '-') && isDigitC m1 && isDigitC m2 && (s2 = '-') &&
    isDigitC d1 && isDigitC d2 &&
    decide (1 ≤ 10 * charVal m1 + charVal m2) &&
    decide (10 * charVal m1 + charVal m2 ≤ 12) &&
    decide (1 ≤ 10 * charVal d1 + charVal d2) &&
    decide (10 * charVal d1 + charVal d2 ≤ 31)
  | _ => false

def wellFormedIso (s : String) : Prop := wellFormedIsoL s.toList = true

/-! ## netlify/functions/market.js

The canonical handler. Cheerio is optional in the source (its `require` is
wrapped in `try`); we embed the regex-fallback branch (`cheerio = null`),
whose trust predicate and key handling are identical to the cheerio branch.
-/

/-- Match `(\d+(?:[.,]\d+)?)` at the head: longest digit run, optionally a
    `.`/`,` separator followed by a nonempty digit run. Returns the captured
    characters and the remainder. -/
def matchNumTok (l : List Char) : Option (List Char × List Char) :=
  let (ip, rest) := takeDigits l
  if ip = [] then none
  else
    match rest with
    | sep :: r =>
      if sep = '.' ∨ sep = ',' then
        let (fp, rest2) := takeDigits r
        if fp = [] then some (ip, rest) else some (ip ++ sep :: fp, rest2)
      else some (ip, rest)
    | [] => some (ip, [])

/-- Match `(\d+(?:[.,]\d+)?)\s*%` at the head of the (lowercased) snippet. -/
def matchPercentAt (l : List Char) : Option (List Char) :=
  match matchNumTok l with
  | none => none
  | some (num, rest) =>
    match dropWs rest with
    | '%' :: _ => some num
    | _ => none

/-- Match `(\d+(?:[.,]\d+)?)\s*p\.?\s*a\.?` at the head (lowercased). -/
def matchPaAt (l : List Char) : Option (List Char) :=
  match matchNumTok l with
  | none => none
  | some (num, rest) =>
    match dropWs rest with
    | 'p' :: r1 =>
      let r2 := match r1 with | '.' :: t => t | _ => r1
      match dropWs r2 with
      | 'a' :: _ => some num
      | _ => none
    | _ => none

/-- Leftmost match of a head-matcher over the snippet (JS `String.match`). -/
def scanFor (f : List Char → Option (List Char)) : List Char → Option (List Char)
  | [] => none
  | c :: cs =>
    match f (c :: cs) with
    | some n => some n
    | none => scanFor f cs

/-- Compute `parseFloat(m[1].replace(",", "."))` on a captured numeral. -/
def numOfCapture (num : List Char) : Option ℚ :=
  jsParseFloat (replaceFirst ',' '.' num)

/-- market.js `findNearestPercent(html, label)`: locate the label
    case-insensitively, cut a ±400-character window around it, and take the
    first `number %` (else `number p.a.`) token in the window. -/
def findNearestPercent (html : List Char) (label : String) : Option ℚ :=
  match indexOfSub (html.map toLowerC) (label.toList.map toLowerC) with
  | none => none
  | some i =>
    let start := i - 400
    let stop := min html.length (i + 400)
    -- the regexes are case-insensitive, and lowercasing fixes digits, `%`,
    -- `.` and `,`, so we scan the lowercased snippet directly
    let snippet := (jsSlice html start stop).map toLowerC
    match scanFor matchPercentAt snippet with
    | some num => numOfCapture num
    | none =>
      match scanFor matchPaAt snippet with
      | some num => numOfCapture num
      | none => none

/-- market.js `TENOR_LABEL` (note: no `3Y` entry). -/
def TENOR_LABEL : List (String × String) :=
  [("1M", "1 Month"), ("3M", "3 Months"), ("6M", "6 Months"),
   ("1Y", "1 Year"), ("2Y", "2 Years"), ("5Y", "5 Years"),
   ("7Y", "7 Years"), ("10Y", "10 Years"), ("20Y", "20 Years"),
   ("30Y", "30 Years")]

/-- market.js `DEMO_TENORS`. -/
def DEMO_TENORS : List (String × ℚ) :=
  [("1M", 5.35), ("3M", 5.25), ("6M", 5.15), ("1Y", 5.05), ("2Y", 4.9),
   ("5Y", 4.7), ("7Y", 4.6), ("10Y", 4.55), ("20Y", 4.5), ("30Y", 4.45)]

/-- market.js `COUNTRY_SLUG` keys. -/
def COUNTRIES : List String := ["US", "DE", "GB", "JP", "CA"]

structure YieldParse where
  ok : Bool
  tenors : List (String × ℚ)
deriving DecidableEq, Repr

/-- market.js `parseWGBYields` (regex fallback): one loop over
    `TENOR_LABEL`, keeping the tenors whose extraction produced a number
    (`if (isNum(v)) tenors[code] = v` — the codes are pairwise distinct so
    object insertion is appending), then `ok = count >= 4`. -/
def parseWGBYields (html : List Char) : YieldParse :=
  let tenors := TENOR_LABEL.filterMap
    (fun cl => (findNearestPercent html cl.2).map (fun v => (cl.1, v)))
  { ok := decide (4 ≤ tenors.length), tenors := tenors }

/-- Match `5\s*years?` at the head of the lowercased document. Returns the
    remainder after the literal (with the optional greedy `s`). -/
def matchFiveYearsAt (l : List Char) : Option (List Char) :=
  match l with
  | '5' :: r =>
    match dropWs r with
    | 'y' :: 'e' :: 'a' :: 'r' :: r2 =>
      match r2 with
      | 's' :: r3 => some r3
      | _ => some r2
    | _ => none
  | _ => none

/-- Match `5y` at the head of the lowercased document. -/
def matchFiveYAt (l : List Char) : Option (List Char) :=
  match l with
  | '5' :: 'y' :: r => some r
  | _ => none

/-- The lazy gap `[^]{0,120}?` followed by `(\d+(?:[.,]\d+)?)\s*bp`:
    try gap lengths 0, 1, … up to `fuel` (120). -/
def cdsTailSearch : Nat → List Char → Option (List Char)
  | fuel, l =>
    let direct :=
      match matchNumTok l with
      | none => none
      | some (num, rest) =>
        match dropWs rest with
        | 'b' :: 'p' :: _ => some num
        | _ => none
    match direct with
    | some num => some num
    | none =>
      match fuel, l with
      | fuel' + 1, _ :: cs => cdsTailSearch fuel' cs
      | _, _ => none

/-- market.js `parseWGBcds5y`: `5\s*Years?[^]{0,120}?(num)\s*bp`, else
    `5Y[^]{0,120}?(num)\s*bp`, case-insensitively; `some` iff `ok` (a
    successful capture always parses to a number). -/
def parseWGBcds5y (html : List Char) : Option ℚ :=
  let low := html.map toLowerC
  let first := scanFor (fun l => (matchFiveYearsAt l).bind (cdsTailSearch 120)) low
  match first with
  | some num => numOfCapture num
  | none =>
    match scanFor (fun l => (matchFiveYAt l).bind (cdsTailSearch 120)) low with
    | some num => numOfCapture num
    | none => none

/-- A market.js response body (the JSON object passed to `okJson`, with the
    optional `debug` field omitted: we model `debug=1` off). -/
inductive MBody
  | yieldB (asOf : String) (country : String) (tenors : List (String × ℚ))
      (src : String)
  | cdsB (asOf : String) (country : String) (cds5y_bps : ℚ) (src : String)
  | errB (msg : String)
deriving DecidableEq, Repr

structure MResp where
  statusCode : Nat
  body : MBody
deriving DecidableEq, Repr

def srcOf : MBody → Option String
  | .yieldB _ _ _ s => some s
  | .cdsB _ _ _ s => some s
  | .errB _ => none

def asOfOf : MBody → Option String
  | .yieldB a _ _ _ => some a
  | .cdsB a _ _ _ => some a
  | .errB _ => none

def tenorsOf : MBody → Option (List (String × ℚ))
  | .yieldB _ _ t _ => some t
  | _ => none

/-- market.js `exports.handler`. `fetchO` is the outcome of the single
    `getHtml` call the invocation performs (`.error` = the fetch threw,
    e.g. a non-success HTTP status); `today` is the clock. -/
def marketHandler (qtype qcountry qh : Option String)
    (fetchO : Except Unit (List Char)) (today : Civil) : MResp :=
  let type := jsToLower (qtype.getD "yield")
  let country := jsToUpper (qcountry.getD "US")
  let _h := jsToLower (qh.getD "today")
  if ¬ country ∈ COUNTRIES then
    ⟨400, .errB "Unsupported country"⟩
  else if type = "yield" then
    match fetchO with
    | .error _ =>
      -- getHtml threw: the handler's catch replies 200 with the demo curve
      ⟨200, .yieldB (isoToday today) country DEMO_TENORS "demo"⟩
    | .ok html =>
      let parsed := parseWGBYields html
      if parsed.ok then
        ⟨200, .yieldB (isoToday today) country parsed.tenors "live"⟩
      else
        ⟨200, .yieldB (isoToday today) country DEMO_TENORS "demo"⟩
  else if type = "cds" then
    match fetchO with
    | .error _ =>
      ⟨200, .cdsB (isoToday today) country 100 "demo"⟩
    | .ok html =>
      match parseWGBcds5y html with
      | some bps => ⟨200, .cdsB (isoToday today) country bps "live"⟩
      | none => ⟨200, .cdsB (isoToday today) country 100 "demo"⟩
  else
    ⟨400, .errB "Unsupported type"⟩

/-! ## The part_001 revision (netlify/functions/market.js with cache)

This revision keeps a 15-minute cache of parsed yield curves, parses WGB
pages with two regex strategies, and accepts a parse only when at least 5
of the enumerated tenors were found. -/

/-- Literal prefix match (case already normalized); returns the remainder. -/
def expectLit : List Char → List Char → Option (List Char)
  | [], l => some l
  | _, [] => none
  | p :: ps, c :: cs => if p = c then expectLit ps cs else none

/-- Skip `[^>]*` followed by `>`: move to just past the closing `>`. -/
def skipTagRest : List Char → Option (List Char)
  | [] => none
  | c :: cs => if c = '>' then some cs else skipTagRest cs

/-- Match `([0-9]{1,2}Y|[136]M)` on lowercased text: greedy, ordered
    alternation. -/
def matchTenorTok (l : List Char) : Option (List Char × List Char) :=
  match l with
  | d1 :: d2 :: 'y' :: r =>
    if isDigitC d1 ∧ isDigitC d2 then some ([d1, d2, 'y'], r)
    else if isDigitC d1 ∧ d2 = 'y' then some ([d1, 'y'], 'y' :: r)
    else if (d1 = '1' ∨ d1 = '3' ∨ d1 = '6') ∧ d2 = 'm' then
      some ([d1, 'm'], 'y' :: r)
    else none
  | d1 :: 'y' :: r =>
    if isDigitC d1 then some ([d1, 'y'], r) else none
  | d1 :: 'm' :: r =>
    if d1 = '1' ∨ d1 = '3' ∨ d1 = '6' then some ([d1, 'm'], r) else none
  | _ => none

/-- Longest run of characters from a class, requiring at least one. -/
def takeClass (p : Char → Bool) : List Char → Option (List Char × List Char)
  | [] => none
  | c :: cs =>
    if p c then
      let rec go : List Char → List Char × List Char
        | [] => ([], [])
        | c' :: cs' =>
          if p c' then
            let (tk, rest) := go cs'
            (c' :: tk, rest)
          else ([], c' :: cs')
      let (tk, rest) := go cs
      some (c :: tk, rest)
    else none

/-- One match of the part_001 table regex
    `<tr[^>]*>\s*<td[^>]*>\s*([0-9]{1,2}Y|[136]M)\s*<\/td>\s*<td[^>]*>\s*([0-9.,]+)\s*%`
    at the head of the lowercased document; returns (tenor, value, rest). -/
def matchTableRowAt (l : List Char) : Option (List Char × List Char × List Char) :=
  match expectLit "<tr".toList l with
  | none => none
  | some l1 =>
  match skipTagRest l1 with
  | none => none
  | some l2 =>
  match expectLit "<td".toList (dropWs l2) with
  | none => none
  | some l3 =>
  match skipTagRest l3 with
  | none => none
  | some l4 =>
  match matchTenorTok (dropWs l4) with
  | none => none
  | some (tenor, l5) =>
  match expectLit "</td>".toList (dropWs l5) with
  | none => none
  | some l6 =>
  match expectLit "<td".toList (dropWs l6) with
  | none => none
  | some l7 =>
  match skipTagRest l7 with
  | none => none
  | some l8 =>
  match takeClass (fun c => isDigitC c || c = '.' || c = ',') (dropWs l8) with
  | none => none
  | some (val, l9) =>
  match dropWs l9 with
  | '%' :: rest => some (tenor, val, rest)
  | _ => none

/-- All (non-overlapping, left-to-right) matches of a matcher, as a global
    regex `exec` loop does; `fuel` bounds the scan (callers pass the
    document length, which suffices since every step advances). -/
def collectMatches (f : List Char → Option (List Char × List Char × List Char)) :
    Nat → List Char → List (List Char × List Char)
  | 0, _ => []
  | _ + 1, [] => []
  | fuel + 1, c :: cs =>
    match f (c :: cs) with
    | some (a, b, rest) => (a, b) :: collectMatches f fuel rest
    | none => collectMatches f fuel cs

/-- One match of the part_001 script-pair regex
    `\["(1M|3M|6M|1Y|2Y|5Y|7Y|10Y|20Y|30Y)"\s*,\s*([0-9.]+)\]` (lowercased). -/
def matchJsPairAt (l : List Char) : Option (List Char × List Char × List Char) :=
  match l with
  | '[' :: '"' :: r =>
    let alts := ["1m", "3m", "6m", "1y", "2y", "5y", "7y", "10y", "20y", "30y"]
    match alts.firstM (fun a => (expectLit a.toList r).map (a.toList, ·)) with
    | none => none
    | some (tenor, r1) =>
    match r1 with
    | '"' :: r2 =>
      match dropWs r2 with
      | ',' :: r3 =>
        match takeClass (fun c => isDigitC c || c = '.') (dropWs r3) with
        | none => none
        | some (val, r4) =>
        match r4 with
        | ']' :: rest => some (tenor, val, rest)
        | _ => none
      | _ => none
    | _ => none
  | _ => none

/-- JS object / `Map.set` update: replace the value under an existing key,
    otherwise append the pair. -/
def mapSet {β : Type} : List (String × β) → String → β → List (String × β)
  | [], k, v => [(k, v)]
  | (k', v') :: t, k, v =>
    if k' = k then (k, v) :: t else (k', v') :: mapSet t k v

def toUpperStr (l : List Char) : String := String.mk (l.map toUpperC)

/-- part_001 `TENORS` (report order; no `3Y`). -/
def TENORS01 : List String :=
  ["1M", "3M", "6M", "1Y", "2Y", "5Y", "7Y", "10Y", "20Y", "30Y"]

/-- part_001 `DEMO_CURVE`. -/
def DEMO_CURVE : List (String × ℚ) :=
  [("1M", 5.35), ("3M", 5.25), ("6M", 5.15), ("1Y", 5.05), ("2Y", 4.90),
   ("5Y", 4.70), ("7Y", 4.60), ("10Y", 4.55), ("20Y", 4.50), ("30Y", 4.45)]

/-- part_001 `parseWgbYield`, map-building phase: Strategy A (table rows),
    then, when fewer than 3 keys were found, Strategy B (script pairs). -/
def wgbYieldMap (html : List Char) : List (String × ℚ) :=
  let low := html.map toLowerC
  let tableHits := collectMatches matchTableRowAt (low.length + 1) low
  let mapA := tableHits.foldl
    (fun m tv =>
      match jsParseFloat (replaceFirst ',' '.' tv.2) with
      | some v => mapSet m (toUpperStr tv.1) v
      | none => m) []
  if mapA.length < 3 then
    let pairHits := collectMatches matchJsPairAt (low.length + 1) low
    pairHits.foldl
      (fun m tv =>
        match jsParseFloat tv.2 with
        | some v => mapSet m (toUpperStr tv.1) v
        | none => m) mapA
  else mapA

/-- The tenors of the enumeration present in the extraction map
    (part_001 `have`). -/
def haveTenors01 (html : List Char) : List String :=
  TENORS01.filter (fun t => ((wgbYieldMap html).lookup t).isSome)

/-- part_001 `parseWgbYield`: `null` unless at least 5 enumerated tenors
    were extracted; otherwise the map restricted to `TENORS` order. -/
def parseWgbYield (html : List Char) : Option (List (String × ℚ)) :=
  let map := wgbYieldMap html
  if 5 ≤ (haveTenors01 html).length then
    some (TENORS01.filterMap (fun t => (map.lookup t).map (t, ·)))
  else none

structure YRec01 where
  asOf : String
  tenors : List (String × ℚ)
  src : String
deriving DecidableEq, Repr

def CACHE_TTL_MS : Int := 15 * 60 * 1000

/-- The part_001 process cache for yields: key → (storedAt, tenors). -/
def Cache01 : Type := List (String × Int × List (String × ℚ))

/-- The check `cached && now - cached.ts < CACHE_TTL_MS`: the stored tenors when the
    entry exists and is fresh. -/
def cacheFresh01 (cache : Cache01) (key : String) (now : Int) :
    Option (List (String × ℚ)) :=
  match List.lookup key cache with
  | some (ts, data) => if now - ts < CACHE_TTL_MS then some data else none
  | none => none

/-- Model of `let tenors = null; try { tenors = parseWgbYield(await fetchText(url)) }
    catch { … }`: a thrown fetch leaves `tenors` null. -/
def fetchedTenors01 (fetchO : Except Unit (List Char)) :
    Option (List (String × ℚ)) :=
  match fetchO with
  | .ok html => parseWgbYield html
  | .error _ => none

/-- part_001 `loadYield`: serve a fresh cache entry as `"live-cache"` with
    a regenerated `asOf`; otherwise fetch + parse; a successful parse is
    stored and tagged `"live"`, else the demo curve is returned tagged
    `"demo"`. The `Except` failure is `throw new Error('unsupported
    country')`. -/
def loadYield01 (country h : String) (now : Int) (today : Civil)
    (cache : Cache01) (fetchO : Except Unit (List Char)) :
    Except String (YRec01 × Cache01) :=
  if ¬ country ∈ COUNTRIES then .error "unsupported country"
  else
    let cacheKey := "y:" ++ country ++ ":" ++ h
    match cacheFresh01 cache cacheKey now with
    | some data =>
      .ok ({ asOf := isoToday today, tenors := data, src := "live-cache" }, cache)
    | none =>
      match fetchedTenors01 fetchO with
      | some t =>
        .ok ({ asOf := isoToday today, tenors := t, src := "live" },
             mapSet cache cacheKey (now, t))
      | none =>
        .ok ({ asOf := isoToday today, tenors := DEMO_CURVE, src := "demo" }, cache)

/-! ### C3: the trust predicates' thresholds -/

/-- A document from which the part_001 parser extracts exactly 4 enumerated
    tenors (via its script-pair strategy). -/
def exPairs4 : List Char :=
  "[\"1M\",5.35],[\"3M\",5.25],[\"6M\",5.15],[\"1Y\",5.05]".toList

/-- A document from which market.js's `parseWGBYields` extracts exactly 4
    tenors (1M, 7Y, 20Y, 30Y). -/
def exMkt4 : List Char := "1 Month 7 Years 20 Years 30 Years 2.2%".toList

/-! ## The part_000 revision (handler with validation, cache and CDS chain)

Its `resp(statusCode, obj, cached)` ignores the `cached` flag, so a cache
hit returns the stored payload verbatim; its yield loader returns static
demo tenors and its CDS loader tries investing.com then WGB. -/

/-- A part_000 payload (`loadYield` / `loadCds` result; no `src` field
    exists in this revision). -/
inductive Data000
  | yieldD (asOf : String) (tenors : List (String × ℚ))
  | cdsD (asOf : String) (cds5y_bps : ℚ)
deriving DecidableEq, Repr

inductive Body000
  | data (d : Data000)
  | err (msg : String)
deriving DecidableEq, Repr

def Cache000 : Type := List (String × Int × Data000)

/-- part_000 `loadYield`'s static curve. -/
def demoTenors000 : List (String × ℚ) :=
  [("2Y", 1.5), ("5Y", 1.7), ("10Y", 2.0), ("30Y", 2.5)]

/-- part_000 `demoCds`. -/
def demoCds (country : String) (_h : String) : ℚ :=
  (List.lookup country
    [("US", (25 : ℚ)), ("DE", 20), ("GB", 40), ("JP", 35), ("CA", 22)]).getD 50

/-- part_000 `countryName`. -/
def countryName (ccy : String) : String :=
  (List.lookup ccy
    [("US", "United States"), ("DE", "Germany"), ("GB", "United Kingdom"),
     ("JP", "Japan"), ("CA", "Canada")]).getD ccy

/-- Match `\d+(?:\.\d+)?` at the head; returns (capture, rest). -/
def matchNumDotTok (l : List Char) : Option (List Char × List Char) :=
  let (ip, rest) := takeDigits l
  if ip = [] then none
  else
    match rest with
    | '.' :: r =>
      let (fp, rest2) := takeDigits r
      if fp = [] then some (ip, rest) else some (ip ++ '.' :: fp, rest2)
    | _ => some (ip, rest)

/-- Match `[^\d]*(\d+(?:\.\d+)?)`: skip to the first digit anywhere later and
    capture the number there; `none` when no digit follows at all. -/
def numAfter : List Char → Option (List Char)
  | [] => none
  | c :: cs =>
    if isDigitC c then (matchNumDotTok (c :: cs)).map (·.1)
    else numAfter cs

/-- Match `[^\n]*?5Y`: first occurrence of `5y` (lowercased doc) before the next
    newline; returns the remainder after it. -/
def findFiveYOnLine : List Char → Option (List Char)
  | [] => none
  | c :: cs =>
    if c = '\n' then none
    else
      match expectLit ['5', 'y'] (c :: cs) with
      | some r => some r
      | none => findFiveYOnLine cs

/-- part_000 `parseInvestingCds`:
    `new RegExp(name + "[^\\n]*?5Y[^\\d]*(\\d+(?:\\.\\d+)?)", "i")`.
    Scans for the country name, then `5Y` on the same line, then the next
    number anywhere after it. -/
def parseInvestingCds (html : List Char) (name : String) : Option ℚ :=
  let low := html.map toLowerC
  let nameLow := name.toList.map toLowerC
  let rec go : List Char → Option ℚ
    | [] => none
    | c :: cs =>
      match
        (expectLit nameLow (c :: cs)).bind fun r =>
          (findFiveYOnLine r).bind fun r2 =>
            (numAfter r2).bind fun num => jsParseFloat num
      with
      | some v => some v
      | none => go cs
  go low

/-- Match `[^\n]*?(\d+(?:\.\d+)?)\s*bp`: first number on the line followed by
    optional whitespace and `bp`. -/
def findNumBpOnLine : List Char → Option (List Char)
  | [] => none
  | c :: cs =>
    if c = '\n' then none
    else
      match
        (matchNumDotTok (c :: cs)).bind fun nr =>
          match dropWs nr.2 with
          | 'b' :: 'p' :: _ => some nr.1
          | _ => none
      with
      | some num => some num
      | none => findNumBpOnLine cs

/-- part_000 `parseWGBCds`:
    `new RegExp(name + "[^\\n]*?(\\d+(?:\\.\\d+)?)\\s*bp", "i")`. -/
def parseWGBCds (html : List Char) (name : String) : Option ℚ :=
  let low := html.map toLowerC
  let nameLow := name.toList.map toLowerC
  let rec go : List Char → Option ℚ
    | [] => none
    | c :: cs =>
      match
        (expectLit nameLow (c :: cs)).bind fun r =>
          (findNumBpOnLine r).bind fun num => jsParseFloat num
      with
      | some v => some v
      | none => go cs
  go low

/-- part_000 `loadYield`: static demo tenors (this revision's yield payload
    carries no `src` tag at all). -/
def loadYield000 (_country _h : String) (today : Civil) : Data000 :=
  .yieldD (isoToday today) demoTenors000

/-- part_000 `loadCds`: try investing.com, then WGB (`o1`/`o2` are the two
    fetch outcomes; `none` = threw or non-ok status), parse the page that
    was obtained, fall back to `demoCds`. No `src` tag is emitted. -/
def loadCds000 (country h : String) (o1 o2 : Option (List Char))
    (today : Civil) : Data000 :=
  let page : Option (List Char × Bool) :=
    match o1 with
    | some h1 => some (h1, true)
    | none =>
      match o2 with
      | some h2 => some (h2, false)
      | none => none
  let cds : Option ℚ :=
    match page with
    | some (html, isInvesting) =>
      let name := countryName country
      let c1 := if isInvesting then parseInvestingCds html name else none
      match c1 with
      | some v => some v
      | none => parseWGBCds html name
    | none => none
  .cdsD (isoToday today)
    (match cds with
     | some v => v
     | none => demoCds country h)

/-- part_000 freshness check (`cached && now - cached.ts < CACHE_TTL_MS`). -/
def cacheFresh000 (cache : Cache000) (key : String) (now : Int) :
    Option Data000 :=
  match List.lookup key cache with
  | some (ts, data) => if now - ts < CACHE_TTL_MS then some data else none
  | none => none

def ALLOWED_TYPES : List String := ["yield", "cds"]

def ALLOWED_H : List String := ["today", "1w", "1m"]

/-- part_000 `exports.handler` (modulo URL plumbing): validate, consult the
    cache, else run the loader and store the result. `resp` ignores its
    `cached` flag, so a hit returns the stored payload verbatim. -/
def handler000 (qt qc qh : Option String) (now : Int) (today : Civil)
    (cache : Cache000) (o1 o2 : Option (List Char)) :
    (Nat × Body000) × Cache000 :=
  let type := jsToLower (qt.getD "yield")
  let country := jsToUpper (qc.getD "US")
  let h := jsToLower (qh.getD "today")
  if ¬ (type ∈ ALLOWED_TYPES ∧ country ∈ COUNTRIES ∧ h ∈ ALLOWED_H) then
    ((400, .err "Invalid parameters"), cache)
  else
    let cacheKey := type ++ ":" ++ country ++ ":" ++ h
    match cacheFresh000 cache cacheKey now with
    | some d => ((200, .data d), cache)
    | none =>
      let d :=
        if type = "yield" then loadYield000 country h today
        else loadCds000 country h o1 o2 today
      ((200, .data d), mapSet cache cacheKey (now, d))

/-! ## The part_003 revision (per-country providers)

This revision fetches official time-series feeds (Treasury, Bundesbank,
Bank of England, MoF, BoC), resolves the requested horizon against the
series, and falls back to per-country demo data. -/

/-- A time-series row as built by `parseBBKCSV` / `parseBOE_TT`
    (`value: v === '' ? null : Number(v)`; a NaN from `Number` is collapsed
    into `none` here, which no claim depends on). -/
structure BRow where
  date : String
  value : Option ℚ
deriving DecidableEq, Repr

def isLeap (y : Nat) : Bool := (y % 4 = 0 ∧ y % 100 ≠ 0) ∨ y % 400 = 0

def daysInMonth (y m : Nat) : Nat :=
  if m = 2 then (if isLeap y then 29 else 28)
  else if m = 4 ∨ m = 6 ∨ m = 9 ∨ m = 11 then 30
  else 31

/-- Days since 1970-01-01 of a civil date (standard civil-from-days
    algorithm, for years ≥ 1). -/
def daysFromCivil (y m d : Nat) : Int :=
  let y' := if m ≤ 2 then y - 1 else y
  let era := y' / 400
  let yoe := y' % 400
  let mp := (m + 9) % 12
  let doy := (153 * mp + 2) / 5 + d - 1
  let doe := yoe * 365 + yoe / 4 - yoe / 100 + doy
  (era * 146097 + doe : Int) - 719468

/-- Civil date of a day count since 1970-01-01 (inverse of
    `daysFromCivil`, for dates from year 1 on). -/
def civilFromDays (z0 : Int) : Civil :=
  let z := (z0 + 719468).toNat
  let era := z / 146097
  let doe := z % 146097
  let yoe := (doe - doe / 1460 + doe / 36524 - doe / 146096) / 365
  let y := yoe + era * 400
  let doy := doe - (365 * yoe + yoe / 4 - yoe / 100)
  let mp := (5 * doy + 2) / 153
  let d := doy - (153 * mp + 2) / 5 + 1
  let m := if mp < 10 then mp + 3 else mp - 9
  ⟨if m ≤ 2 then y + 1 else y, m, d⟩

/-- Model of `new Date(s)` for an ISO `YYYY-MM-DD` string: UTC-midnight epoch
    milliseconds, or an Invalid Date (`none`) when the shape or the
    calendar ranges are off. -/
def jsDateMs (s : String) : Option Int :=
  match s.toList with
  | [y1, y2, y3, y4, s1, m1, m2, s2, d1, d2] =>
    if (isDigitC y1 && isDigitC y2 && isDigitC y3 && isDigitC y4 &&
        (s1 = '-') && isDigitC m1 && isDigitC m2 && (s2 = '-') &&
        isDigitC d1 && isDigitC d2) then
      let y := 1000 * charVal y1 + 100 * charVal y2 + 10 * charVal y3 + charVal y4
      let m := 10 * charVal m1 + charVal m2
      let d := 10 * charVal d1 + charVal d2
      if 1 ≤ m ∧ m ≤ 12 ∧ 1 ≤ d ∧ d ≤ daysInMonth y m then
        some (daysFromCivil y m d * 86400000)
      else none
    else none
  | _ => none

/-- The test `(new Date(last.date) - new Date(r.date)) / 86400000 >= want`; a NaN
    (invalid date) comparison is false. -/
def diffGeB (last r : BRow) (want : ℚ) : Bool :=
  match jsDateMs last.date, jsDateMs r.date with
  | some d0, some d => decide (want ≤ ((d0 - d : Int) : ℚ) / 86400000)
  | _, _ => false

/-- part_003 `pickRowByH`: `null` on an empty series; the last row for
    `today`; otherwise walk backward from the end and return the first row
    at least 7 (`1w`) or 30 (otherwise) days older than the last row, the
    last row when none is. -/
def pickRowByH (rows : List BRow) (h : String) : Option BRow :=
  match rows.getLast? with
  | none => none
  | some last =>
    if h = "today" then some last
    else
      let want : ℚ := if h = "1w" then 7 else 30
      match rows.reverse.find? (fun r => diffGeB last r want) with
      | some r => some r
      | none => some last

/-- The observation `r` is at least `n` calendar days older than `last`
    (both dates valid). -/
def olderByDays (last r : BRow) (n : ℚ) : Prop :=
  ∃ d0 d, jsDateMs last.date = some d0 ∧ jsDateMs r.date = some d ∧
    n ≤ ((d0 - d : Int) : ℚ) / 86400000

/-- part_003 `BBK_SERIES` keys, in `Object.entries` order — note the `15Y`
    entry, which is not in the 11-tenor report skeleton. -/
def BBK_TENORS : List String := ["2Y", "5Y", "7Y", "10Y", "15Y", "30Y"]

/-- part_003 `provider_de_yield`'s report skeleton
    `{ '1M':null, …, '30Y':null }`. -/
def TEN_INIT : List (String × Option ℚ) :=
  [("1M", none), ("3M", none), ("6M", none), ("1Y", none), ("2Y", none),
   ("3Y", none), ("5Y", none), ("7Y", none), ("10Y", none), ("20Y", none),
   ("30Y", none)]

/-- part_003 `provider_de_yield`, tenor-map phase:
    `entries.forEach(([tenor, p]) => { ten[tenor] = p?.value ?? null })`
    over the fixed `BBK_SERIES` tenors, starting from the full-null
    skeleton; `pick` is the per-tenor `pickRowByH` outcome. -/
def deTenorMap (pick : String → Option BRow) : List (String × Option ℚ) :=
  BBK_TENORS.foldl (fun m t => mapSet m t ((pick t).bind BRow.value)) TEN_INIT

/-! ### part_003 `parseBOE_TT` in an explicit JS-error monad (claim C8) -/

inductive JsErr
  | typeErr
  | rangeErr
deriving DecidableEq, Repr

/-- Split at every occurrence of a character (the pieces, without it). -/
def splitOnChar (sep : Char) : List Char → List (List Char)
  | [] => [[]]
  | c :: cs =>
    let rest := splitOnChar sep cs
    if c = sep then [] :: rest
    else
      match rest with
      | piece :: more => (c :: piece) :: more
      | [] => [[c]]

def trimWs (l : List Char) : List Char := (dropWs (dropWs l.reverse).reverse)

/-- Model of `text.split(/\r?\n/)`: split on newlines, dropping a trailing
    `\r`. -/
def splitLinesJs (l : List Char) : List (List Char) :=
  (splitOnChar '\n' l).map fun piece =>
    match piece.reverse with
    | '\r' :: r => r.reverse
    | _ => piece

/-- Split into maximal whitespace-free runs (`t.split(/\s+/)` after trim). -/
def splitWsRuns : List Char → List (List Char)
  | [] => []
  | c :: cs =>
    if isWsC c then splitWsRuns cs
    else
      match splitWsRuns cs with
      | [] => [[c]]
      | piece :: more =>
        match cs with
        | c2 :: _ => if isWsC c2 then [c] :: piece :: more
                     else (c :: piece) :: more
        | [] => [[c]]

/-- English month names accepted by `new Date("D Mon YYYY")`. -/
def monthNum (l : List Char) : Option Nat :=
  List.lookup (String.mk (l.map toLowerC))
    [("jan", 1), ("feb", 2), ("mar", 3), ("apr", 4), ("may", 5), ("jun", 6),
     ("jul", 7), ("aug", 8), ("sep", 9), ("oct", 10), ("nov", 11), ("dec", 12)]

def allDigits (l : List Char) : Bool := l.all isDigitC && decide (l ≠ [])

/-- Model of `new Date(s)` restricted to the shapes this code produces: an ISO
    `YYYY-MM-DD`, or `"D Mon YYYY"` (as built by `dateFromBoE`); everything
    else is an Invalid Date (`none`), as in ECMAScript engines. -/
def jsNewDate (s : String) : Option Int :=
  match jsDateMs s with
  | some ms => some ms
  | none =>
    match splitWsRuns s.toList with
    | [dTok, monTok, yTok] =>
      if allDigits dTok && decide (dTok.length ≤ 2) && allDigits yTok &&
          decide (yTok.length = 4) then
        match monthNum monTok with
        | some m =>
          let d := digitsVal dTok
          let y := digitsVal yTok
          if 1 ≤ d ∧ d ≤ daysInMonth y m then
            some (daysFromCivil y m d * 86400000)
          else none
        | none => none
      else none
    | _ => none

/-- Model of `d.toISOString().slice(0, 10)`: RangeError on an Invalid Date. -/
def jsToISOStringDate (d : Option Int) : Except JsErr String :=
  match d with
  | none => .error .rangeErr
  | some ms => .ok (isoToday (civilFromDays (ms / 86400000)))

/-- part_003 `dateFromBoE`: `s.replace(/\//g,' ').trim()` split on
    whitespace; with 3+ tokens, `new Date("d mon y").toISOString()` — which
    RAISES RangeError when that date is invalid; otherwise `new Date(s)`,
    guarded by `isNaN`. -/
def dateFromBoE (s : String) : Except JsErr String :=
  let t := trimWs ((s.toList).map (fun c => if c = '/' then ' ' else c))
  let parts := splitWsRuns t
  if 3 ≤ parts.length then
    let str := String.mk ((parts.getD 0 []) ++ ' ' :: (parts.getD 1 []) ++
      ' ' :: (parts.getD 2 []))
    jsToISOStringDate (jsNewDate str)
  else
    match jsNewDate s with
    | none => .ok s
    | some ms => jsToISOStringDate (some ms)

/-- Modelled from the spec: `splitCSVLine` is called by `parseBOE_TT` but
    its body is not under src/ (the revision is truncated); per the spec's
    CSV handling it splits one line at commas. Its argument can be
    `undefined` (`lines[-1]` when no `Date` header was found), on which any
    string method raises TypeError in JS. -/
def splitCSVLine (v : Option (List Char)) : Except JsErr (List (List Char)) :=
  match v with
  | none => .error .typeErr
  | some s => .ok (splitOnChar ',' s)

/-- Index `lines[i]` where `i` may be `-1` (`none`): JS indexing yields
    `undefined` out of range. -/
def jsAt (l : List (List Char)) (i : Option Nat) : Option (List Char) :=
  match i with
  | some n => l.get? n
  | none => none

/-- Match the header regex `/^"?Date"?\s*,/i`. -/
def isDateHeader (s : List Char) : Bool :=
  let l := s.map toLowerC
  let l1 := match l with | '"' :: r => r | _ => l
  match expectLit "date".toList l1 with
  | none => false
  | some r =>
    let r1 := match r with | '"' :: t => t | _ => r
    match dropWs r1 with
    | ',' :: _ => true
    | _ => false

/-- Model of `.replace(/(^"|"$)/g, '')`. -/
def stripQuotes (l : List Char) : List Char :=
  let l1 := match l with | '"' :: r => r | _ => l
  match l1.reverse with
  | '"' :: r => r.reverse
  | _ => l1

/-- JS `Number(v)` on the CSV cell values this code meets: `none` is NaN. -/
def jsNumber (l : List Char) : Option ℚ :=
  let t := trimWs l
  match matchNumDotTok t with
  | some (num, []) => jsParseFloat num
  | _ => none

structure BOESeries where
  code : String
  title : String
  values : List BRow
deriving DecidableEq, Repr

structure BOEParsed where
  asOf : Option String
  series : List BOESeries
deriving DecidableEq, Repr

def lexLe : List Char → List Char → Bool
  | [], _ => true
  | _ :: _, [] => false
  | c :: cs, d :: ds =>
    if c.toNat < d.toNat then true
    else if c.toNat = d.toNat then lexLe cs ds
    else false

/-- JS default `Array.prototype.sort()` (lexicographic insertion sort). -/
def sortLex (l : List (List Char)) : List (List Char) :=
  let insert1 : List Char → List (List Char) → List (List Char) :=
    fun a =>
      let rec ins : List (List Char) → List (List Char)
        | [] => [a]
        | b :: bs => if lexLe a b then a :: b :: bs else b :: ins bs
      ins
  l.foldr insert1 []

/-- One `values` row of the part_003 `parseBOE_TT` column loop: skipped
    when the date cell is empty; `dateFromBoE` may raise. -/
def boeRow (lines : List (List Char)) (c : Nat) (r : Nat) :
    Except JsErr (Option BRow) := do
  let row ← splitCSVLine (jsAt lines (some r))
  let date := row.getD 0 []
  let v := row.get? c
  let value : Option ℚ :=
    match v with
    | some [] => none
    | some s => jsNumber s
    | none => none
  if date ≠ [] then
    let iso ← dateFromBoE (String.mk date)
    pure (some ⟨iso, value⟩)
  else
    pure none

/-- part_003 `parseBOE_TT` with JS exception behavior made explicit. -/
def parseBOE_TT (text : String) : Except JsErr BOEParsed := do
  let lines := (splitLinesJs text.toList).filter (fun l => 0 < (trimWs l).length)
  if lines.length < 2 then
    return ⟨none, []⟩
  let headerIdx : Option Nat := lines.findIdx? isDateHeader
  let titleRowIdx : Option Nat :=
    match headerIdx with
    | some i => if 0 < i then some (i - 1) else none
    | none => none
  let headers ← splitCSVLine (jsAt lines headerIdx)
  let titles ←
    match titleRowIdx with
    | some i => splitCSVLine (jsAt lines (some i))
    | none => pure headers
  let hi := headerIdx.getD 0
  let series ← ((List.range headers.length).drop 1).mapM (fun c => do
    let code := stripQuotes (headers.getD c [])
    let tc := (titles.get? c).getD []
    let title := stripQuotes (if tc = [] then code else tc)
    let rows ← ((List.range lines.length).drop (hi + 1)).mapM (boeRow lines c)
    pure (⟨String.mk code, String.mk title, rows.reduceOption⟩ : BOESeries))
  let allDates := sortLex (series.flatMap (fun s => s.values.map (·.date.toList)))
  let asOf := (allDates.getLast?).map String.mk
  pure ⟨asOf, series⟩

/-- The spec's own horizon example: `[(d-40,1.0),(d-20,1.1),(d-5,1.2),(d,1.3)]`. -/
def rows4 : List BRow :=
  [⟨"2024-01-01", some 1.0⟩, ⟨"2024-01-21", some 1.1⟩,
   ⟨"2024-02-05", some 1.2⟩, ⟨"2024-02-10", some 1.3⟩]

/-! ### C7: key sets of emitted tenor mappings -/

/-- A document from which market.js extracts exactly the four tenors
    1M, 1Y, 2Y and 5Y (so e.g. `10Y` is missing from the live record). -/
def ex7doc : List Char := "1 Month 1 Year 2 Years 5 Years 4.5%".toList

/-! ### C8: the extractors' exception behavior -/

/-- A malformed BoE CSV document: a proper `Date` header row, but a data
    row whose date cell `aa/bb/cc` is not a date. -/
def boeFailDoc : String := "Date,DQT\naa/bb/cc,1.5"

/-- A well-formed one-column BoE document, for contrast. -/
def boeOkDoc : String := "Date,DQT\n12/Jan/2024,3.5"

/-! ## Theorems -/

theorem isDigitC_digitChar (k : Nat) : isDigitC (digitChar k) = true := by
  unfold digitChar
  rcases k with _ | _ | _ | _ | _ | _ | _ | _ | _ | k <;> rfl

theorem charVal_digitChar (k : Nat) (hk : k < 10) : charVal (digitChar k) = k := by
  unfold digitChar
  rcases k with _ | _ | _ | _ | _ | _ | _ | _ | _ | _ | k <;> first | rfl | omega

theorem wellFormedIso_isoToday (c : Civil) (hc : c.Valid) :
    wellFormedIso (isoToday c) := by
  obtain ⟨_, _, hm1, hm12, hd1, hd31⟩ := hc
  show wellFormedIsoL (String.mk (isoFmtC c)).toList = true
  unfold isoFmtC pad4 pad2
  simp only [String.toList, List.cons_append, List.nil_append]
  rw [wellFormedIsoL]
  simp only [Bool.and_eq_true, decide_eq_true_eq, isDigitC_digitChar, true_and]
  rw [charVal_digitChar (c.m / 10 % 10) (by omega),
      charVal_digitChar (c.m % 10) (by omega),
      charVal_digitChar (c.d / 10 % 10) (by omega),
      charVal_digitChar (c.d % 10) (by omega)]
  omega

/-! ### Normalization facts for the supported parameter values -/

theorem norm_yield : jsToLower "yield" = "yield" := by with_unfolding_all rfl

theorem norm_cds : jsToLower "cds" = "cds" := by with_unfolding_all rfl

theorem norm_today : jsToLower "today" = "today" := by with_unfolding_all rfl

theorem norm_country (c : String) (hc : c ∈ COUNTRIES) : jsToUpper c = c := by
  simp only [COUNTRIES, List.mem_cons, List.not_mem_nil, or_false] at hc
  rcases hc with rfl | rfl | rfl | rfl | rfl
  · with_unfolding_all rfl
  · with_unfolding_all rfl
  · with_unfolding_all rfl
  · with_unfolding_all rfl
  · with_unfolding_all rfl

theorem yield_ne_cds : ("yield" : String) ≠ "cds" := by decide

/-- Unfolds `marketHandler` on a supported yield request. -/
theorem marketHandler_yield (c : String) (hc : c ∈ COUNTRIES) (qh : Option String)
    (fetchO : Except Unit (List Char)) (today : Civil) :
    marketHandler (some "yield") (some c) qh fetchO today =
      match fetchO with
      | .error _ => ⟨200, .yieldB (isoToday today) c DEMO_TENORS "demo"⟩
      | .ok html =>
        let parsed := parseWGBYields html
        if parsed.ok then
          ⟨200, .yieldB (isoToday today) c parsed.tenors "live"⟩
        else
          ⟨200, .yieldB (isoToday today) c DEMO_TENORS "demo"⟩ := by
  unfold marketHandler
  rw [Option.getD_some, Option.getD_some, norm_yield, norm_country c hc]
  rw [if_neg (by simpa using hc), if_pos rfl]

/-- Unfolds `marketHandler` on a supported cds request. -/
theorem marketHandler_cds (c : String) (hc : c ∈ COUNTRIES) (qh : Option String)
    (fetchO : Except Unit (List Char)) (today : Civil) :
    marketHandler (some "cds") (some c) qh fetchO today =
      match fetchO with
      | .error _ => ⟨200, .cdsB (isoToday today) c 100 "demo"⟩
      | .ok html =>
        match parseWGBcds5y html with
        | some bps => ⟨200, .cdsB (isoToday today) c bps "live"⟩
        | none => ⟨200, .cdsB (isoToday today) c 100 "demo"⟩ := by
  unfold marketHandler
  rw [Option.getD_some, Option.getD_some, norm_cds, norm_country c hc]
  rw [if_neg (by simpa using hc), if_neg (by decide), if_pos rfl]

/-- C1: for every supported request, whatever the single upstream fetch
    returns — an exception (`.error`) or a document whose parse fails — the
    handler replies with HTTP 200, and on any upstream failure the payload
    is tagged `"demo"`; it never surfaces an error status for upstream
    failure. (market.js lines 219–309: parse failures return 200/demo and
    the final `catch` returns 200/demo.) -/
theorem market_c1_upstream_failure_still_200
    (t c : String) (qh : Option String) (fetchO : Except Unit (List Char))
    (today : Civil) (ht : t = "yield" ∨ t = "cds") (hc : c ∈ COUNTRIES) :
    (marketHandler (some t) (some c) qh fetchO today).statusCode = 200 ∧
    (∀ e, fetchO = .error e →
      srcOf (marketHandler (some t) (some c) qh fetchO today).body = some "demo") ∧
    (∀ html, fetchO = .ok html →
      ((t = "yield" ∧ (parseWGBYields html).ok = false) ∨
       (t = "cds" ∧ parseWGBcds5y html = none)) →
      srcOf (marketHandler (some t) (some c) qh fetchO today).body = some "demo") := by
  rcases ht with rfl | rfl
  · rw [marketHandler_yield c hc]
    cases fetchO with
    | error e => exact ⟨rfl, fun _ _ => rfl, by simp⟩
    | ok html =>
      refine ⟨?_, by simp, ?_⟩
      · by_cases hp : (parseWGBYields html).ok <;> simp [hp]
      · intro h' heq hcase
        cases heq
        rcases hcase with ⟨-, hp⟩ | ⟨habs, -⟩
        · simp [hp, srcOf]
        · exact absurd habs yield_ne_cds
  · rw [marketHandler_cds c hc]
    cases fetchO with
    | error e => exact ⟨rfl, fun _ _ => rfl, by simp⟩
    | ok html =>
      refine ⟨?_, by simp, ?_⟩
      · cases hp : parseWGBcds5y html <;> simp [hp]
      · intro h' heq hcase
        cases heq
        rcases hcase with ⟨habs, -⟩ | ⟨-, hp⟩
        · exact absurd habs.symm yield_ne_cds
        · simp [hp, srcOf]

/-- C1 witness: a concrete supported request whose fetch throws is answered
    200 with a demo-tagged payload. -/
theorem market_c1_witness :
    (("yield" : String) = "yield" ∨ ("yield" : String) = "cds") ∧
    ("US" ∈ COUNTRIES) ∧
    (marketHandler (some "yield") (some "US") none (.error ())
      ⟨2024, 5, 1⟩).statusCode = 200 ∧
    srcOf (marketHandler (some "yield") (some "US") none (.error ())
      ⟨2024, 5, 1⟩).body = some "demo" := by
  refine ⟨Or.inl rfl, by decide, ?_⟩
  have h := market_c1_upstream_failure_still_200 "yield" "US" none (.error ())
    ⟨2024, 5, 1⟩ (Or.inl rfl) (by decide)
  exact ⟨h.1, h.2.1 () rfl⟩

/-- C6: when the provider chain is exhausted (the fetch threw, or the parse
    failed its trust predicate), the market.js response is exactly the demo
    fallback record for that (type, country) — `DEMO_TENORS` for yields,
    100 bps for CDS — and its provenance tag `"demo"` reads as non-live. -/
theorem market_c6_exhausted_equals_demo
    (c : String) (hc : c ∈ COUNTRIES) (qh : Option String) (today : Civil)
    (fetchO : Except Unit (List Char)) :
    (∀ e, fetchO = .error e →
      marketHandler (some "yield") (some c) qh fetchO today =
        ⟨200, .yieldB (isoToday today) c DEMO_TENORS "demo"⟩ ∧
      marketHandler (some "cds") (some c) qh fetchO today =
        ⟨200, .cdsB (isoToday today) c 100 "demo"⟩) ∧
    (∀ html, fetchO = .ok html →
      ((parseWGBYields html).ok = false →
        marketHandler (some "yield") (some c) qh fetchO today =
          ⟨200, .yieldB (isoToday today) c DEMO_TENORS "demo"⟩) ∧
      (parseWGBcds5y html = none →
        marketHandler (some "cds") (some c) qh fetchO today =
          ⟨200, .cdsB (isoToday today) c 100 "demo"⟩)) ∧
    ("demo" : String) ≠ "live" := by
  rw [marketHandler_yield c hc, marketHandler_cds c hc]
  refine ⟨?_, ?_, by decide⟩
  · intro e he
    cases he
    exact ⟨rfl, rfl⟩
  · intro html heq
    cases heq
    exact ⟨fun hp => by simp [hp], fun hp => by simp [hp]⟩

/-- C6 witness: with an upstream document on which the yield parse fails
    (the empty document), the reply is exactly the demo record. -/
theorem market_c6_witness :
    ("DE" ∈ COUNTRIES) ∧
    (parseWGBYields [] ).ok = false ∧
    marketHandler (some "yield") (some "DE") none (.ok []) ⟨2024, 5, 1⟩ =
      ⟨200, .yieldB (isoToday ⟨2024, 5, 1⟩) "DE" DEMO_TENORS "demo"⟩ := by
  refine ⟨by decide, by with_unfolding_all rfl, ?_⟩
  exact (((market_c6_exhausted_equals_demo "DE" (by decide) none ⟨2024, 5, 1⟩
    (.ok [])).2.1 [] rfl).1 (by with_unfolding_all rfl))

/-- C10: the demo fallback yield curve does not depend on the country: any
    two yield responses served from the demo fallback carry the same
    tenor-to-rate mapping (`DEMO_TENORS` is a single constant). -/
theorem market_c10_demo_curve_country_independent
    (c1 c2 : String) (q1 q2 : Option String) (f1 f2 : Except Unit (List Char))
    (d1 d2 : Civil)
    (h1 : srcOf (marketHandler (some "yield") (some c1) q1 f1 d1).body = some "demo")
    (h2 : srcOf (marketHandler (some "yield") (some c2) q2 f2 d2).body = some "demo") :
    tenorsOf (marketHandler (some "yield") (some c1) q1 f1 d1).body =
      tenorsOf (marketHandler (some "yield") (some c2) q2 f2 d2).body := by
  have key : ∀ (c : String) (q : Option String) (f : Except Unit (List Char))
      (d : Civil),
      srcOf (marketHandler (some "yield") (some c) q f d).body = some "demo" →
      tenorsOf (marketHandler (some "yield") (some c) q f d).body =
        some DEMO_TENORS := by
    intro c q f d hsrc
    unfold marketHandler at *
    set cty := jsToUpper c with hcty
    by_cases hmem : cty ∈ COUNTRIES
    · rw [if_neg (by simpa using hmem)] at hsrc ⊢
      rw [if_pos (by with_unfolding_all rfl)] at hsrc ⊢
      cases f with
      | error e => rfl
      | ok html =>
        by_cases hp : (parseWGBYields html).ok
        · simp only [hp, if_true] at hsrc
          simp [srcOf] at hsrc
        · simp only [hp, Bool.false_eq_true, if_false] at hsrc ⊢
          rfl
    · rw [if_pos (by simpa using hmem)] at hsrc
      simp [srcOf] at hsrc
  rw [key c1 q1 f1 d1 h1, key c2 q2 f2 d2 h2]

/-- C10 witness: two different supported countries whose fetches both throw
    are both served the same demo curve. -/
theorem market_c10_witness :
    srcOf (marketHandler (some "yield") (some "US") none (.error ())
      ⟨2024, 5, 1⟩).body = some "demo" ∧
    srcOf (marketHandler (some "yield") (some "JP") none (.error ())
      ⟨2024, 6, 2⟩).body = some "demo" ∧
    tenorsOf (marketHandler (some "yield") (some "US") none (.error ())
      ⟨2024, 5, 1⟩).body =
      tenorsOf (marketHandler (some "yield") (some "JP") none (.error ())
        ⟨2024, 6, 2⟩).body := by
  have h1 : srcOf (marketHandler (some "yield") (some "US") none (.error ())
      ⟨2024, 5, 1⟩).body = some "demo" := by with_unfolding_all rfl
  have h2 : srcOf (marketHandler (some "yield") (some "JP") none (.error ())
      ⟨2024, 6, 2⟩).body = some "demo" := by with_unfolding_all rfl
  exact ⟨h1, h2,
    market_c10_demo_curve_country_independent "US" "JP" none none _ _ _ _ h1 h2⟩

/-- C3 (amended): both trust predicates reject an extraction of exactly 3
    enumerated tenors; market.js's `parseWGBYields` accepts any extraction
    of 4 or more, while the part_001 revision's `parseWgbYield` accepts
    only 5 or more — it also rejects an extraction of exactly 4. -/
theorem c3_trust_predicate_thresholds (html : List Char) :
    ((parseWGBYields html).tenors.length = 3 → (parseWGBYields html).ok = false) ∧
    (4 ≤ (parseWGBYields html).tenors.length → (parseWGBYields html).ok = true) ∧
    ((haveTenors01 html).length = 3 → parseWgbYield html = none) ∧
    ((haveTenors01 html).length = 4 → parseWgbYield html = none) ∧
    (5 ≤ (haveTenors01 html).length → (parseWgbYield html).isSome = true) := by
  have hok : (parseWGBYields html).ok
      = decide (4 ≤ (parseWGBYields html).tenors.length) := rfl
  refine ⟨?_, ?_, ?_, ?_, ?_⟩
  · intro h
    rw [hok, h]
    rfl
  · intro h
    rw [hok, decide_eq_true_eq.mpr h]
  · intro h
    unfold parseWgbYield
    rw [if_neg (by omega)]
  · intro h
    unfold parseWgbYield
    rw [if_neg (by omega)]
  · intro h
    unfold parseWgbYield
    rw [if_pos h]
    rfl

/-- C3 counterexample: the part_001 trust predicate rejects a result with
    4 enumerated tenors extracted, refuting "accepts any result with 4 or
    more tenors extracted". -/
theorem c3_counterexample_four_rejected :
    (haveTenors01 exPairs4).length = 4 ∧ parseWgbYield exPairs4 = none := by
  constructor
  · with_unfolding_all rfl
  · with_unfolding_all rfl

/-- C3 witness: market.js accepts a concrete 4-tenor extraction. -/
theorem c3_witness :
    4 ≤ (parseWGBYields exMkt4).tenors.length ∧ (parseWGBYields exMkt4).ok = true := by
  have h4 : (parseWGBYields exMkt4).tenors.length = 4 := by with_unfolding_all rfl
  exact ⟨by omega, (c3_trust_predicate_thresholds exMkt4).2.1 (by omega)⟩

/-! ### C5: the asOf stamp and the src tag -/

/-- C5 (amended): every supported market.js request is answered with a
    well-formed `YYYY-MM-DD` `asOf` and a src tag in {live, demo}; the
    part_001 `loadYield` emits src tags in {live, live-cache, demo} — its
    cache hits are tagged `"live-cache"`, never `"cache"` — always with a
    well-formed `asOf`. -/
theorem c5_wellformed_asof_and_src_tags
    (t c : String) (qh : Option String) (fetchO : Except Unit (List Char))
    (today : Civil) (ht : t = "yield" ∨ t = "cds") (hc : c ∈ COUNTRIES)
    (hv : today.Valid) :
    (∃ a, asOfOf (marketHandler (some t) (some c) qh fetchO today).body = some a ∧
      wellFormedIso a) ∧
    (srcOf (marketHandler (some t) (some c) qh fetchO today).body = some "live" ∨
     srcOf (marketHandler (some t) (some c) qh fetchO today).body = some "demo") ∧
    (∀ hz now cache r cache',
      loadYield01 c hz now today cache fetchO = .ok (r, cache') →
      wellFormedIso r.asOf ∧
      (r.src = "live" ∨ r.src = "live-cache" ∨ r.src = "demo")) := by
  have hwf := wellFormedIso_isoToday today hv
  refine ⟨?_, ?_, ?_⟩
  · rcases ht with rfl | rfl
    · rw [marketHandler_yield c hc]
      cases fetchO with
      | error e => exact ⟨isoToday today, rfl, hwf⟩
      | ok html =>
        by_cases hp : (parseWGBYields html).ok <;>
          simp only [hp, Bool.false_eq_true, if_true, if_false] <;>
          exact ⟨isoToday today, rfl, hwf⟩
    · rw [marketHandler_cds c hc]
      cases fetchO with
      | error e => exact ⟨isoToday today, rfl, hwf⟩
      | ok html =>
        cases hp : parseWGBcds5y html <;> simp only [hp] <;>
          exact ⟨isoToday today, rfl, hwf⟩
  · rcases ht with rfl | rfl
    · rw [marketHandler_yield c hc]
      cases fetchO with
      | error e => exact Or.inr rfl
      | ok html =>
        by_cases hp : (parseWGBYields html).ok <;>
          simp only [hp, Bool.false_eq_true, if_true, if_false]
        · exact Or.inl rfl
        · exact Or.inr rfl
    · rw [marketHandler_cds c hc]
      cases fetchO with
      | error e => exact Or.inr rfl
      | ok html =>
        cases hp : parseWGBcds5y html
        · simp only [hp]
          exact Or.inr rfl
        · simp only [hp]
          exact Or.inl rfl
  · intro hz now cache r cache' hr
    unfold loadYield01 at hr
    rw [if_neg (by simpa using hc)] at hr
    rcases hfr : cacheFresh01 cache ("y:" ++ c ++ ":" ++ hz) now with - | data <;>
      simp only [hfr] at hr
    case _ =>
      rcases hft : fetchedTenors01 fetchO with - | t <;> simp only [hft] at hr <;>
        cases hr <;>
        exact ⟨hwf, by first
          | exact Or.inl rfl
          | exact Or.inr (Or.inl rfl)
          | exact Or.inr (Or.inr rfl)⟩
    case _ =>
      cases hr
      exact ⟨hwf, Or.inr (Or.inl rfl)⟩

/-- C5 counterexample: a fresh part_001 cache hit is tagged `"live-cache"`,
    which is outside {live, cache, demo}. -/
theorem c5_counterexample_live_cache_tag :
    loadYield01 "US" "today" 1 ⟨2024, 5, 1⟩
        [("y:US:today", (0, [("10Y", 2)]))] (.error ()) =
      .ok ({ asOf := "2024-05-01", tenors := [("10Y", 2)], src := "live-cache" },
           [("y:US:today", (0, [("10Y", 2)]))]) ∧
    ("live-cache" : String) ∉ (["live", "cache", "demo"] : List String) := by
  constructor
  · with_unfolding_all rfl
  · decide

/-- C5 witness: a concrete supported cds request with a failed fetch has a
    well-formed asOf and a src tag in {live, demo}. -/
theorem c5_witness :
    (∃ a, asOfOf (marketHandler (some "cds") (some "CA") none (.error ())
        ⟨2024, 5, 1⟩).body = some a ∧ wellFormedIso a) ∧
    (srcOf (marketHandler (some "cds") (some "CA") none (.error ())
        ⟨2024, 5, 1⟩).body = some "live" ∨
     srcOf (marketHandler (some "cds") (some "CA") none (.error ())
        ⟨2024, 5, 1⟩).body = some "demo") := by
  have h := c5_wellformed_asof_and_src_tags "cds" "CA" none (.error ())
    ⟨2024, 5, 1⟩ (Or.inr rfl) (by decide) (by decide)
  exact ⟨h.1, h.2.1⟩

/-- C9: omitted query parameters are not rejected: both the market.js
    handler and the part_000 handler behave exactly as if `type=yield`,
    `country=US`, `h=today` had been supplied (`|| "yield"`, `|| "US"`,
    `|| "today"` defaulting before validation). -/
theorem c9_omitted_params_default
    (fetchO : Except Unit (List Char)) (today : Civil) (now : Int)
    (cache : Cache000) (o1 o2 : Option (List Char)) :
    marketHandler none none none fetchO today =
      marketHandler (some "yield") (some "US") (some "today") fetchO today ∧
    handler000 none none none now today cache o1 o2 =
      handler000 (some "yield") (some "US") (some "today") now today cache o1 o2 := by
  exact ⟨rfl, rfl⟩

theorem norm_type (t : String) (ht : t ∈ ALLOWED_TYPES) : jsToLower t = t := by
  simp only [ALLOWED_TYPES, List.mem_cons, List.not_mem_nil, or_false] at ht
  rcases ht with rfl | rfl
  · with_unfolding_all rfl
  · with_unfolding_all rfl

theorem norm_h (hz : String) (hh : hz ∈ ALLOWED_H) : jsToLower hz = hz := by
  simp only [ALLOWED_H, List.mem_cons, List.not_mem_nil, or_false] at hh
  rcases hh with rfl | rfl | rfl
  · with_unfolding_all rfl
  · with_unfolding_all rfl
  · with_unfolding_all rfl

/-- C2 (amended): for every key (type, country, horizon), a part_000 cache
    read within the 15-minute window returns the stored payload verbatim
    and leaves the cache unchanged — no `src` tag is switched to `"cache"`
    (the part_001 revision tags such hits `"live-cache"`); outside the
    window (or on a missing entry) the full pipeline runs again and
    overwrites the entry. -/
theorem c2_cache_hit_verbatim_miss_overwrites
    (t c hz : String) (ht : t ∈ ALLOWED_TYPES) (hc : c ∈ COUNTRIES)
    (hh : hz ∈ ALLOWED_H) (now : Int) (today : Civil) (cache : Cache000)
    (o1 o2 : Option (List Char)) :
    (∀ d, cacheFresh000 cache (t ++ ":" ++ c ++ ":" ++ hz) now = some d →
      handler000 (some t) (some c) (some hz) now today cache o1 o2 =
        ((200, .data d), cache)) ∧
    (cacheFresh000 cache (t ++ ":" ++ c ++ ":" ++ hz) now = none →
      handler000 (some t) (some c) (some hz) now today cache o1 o2 =
        ((200, .data (if t = "yield" then loadYield000 c hz today
                      else loadCds000 c hz o1 o2 today)),
         mapSet cache (t ++ ":" ++ c ++ ":" ++ hz)
           (now, if t = "yield" then loadYield000 c hz today
                 else loadCds000 c hz o1 o2 today))) ∧
    (∀ (cache01 : Cache01) (ts : Int) (data : List (String × ℚ))
        (fetchO : Except Unit (List Char)),
      List.lookup ("y:" ++ c ++ ":" ++ hz) cache01 = some (ts, data) →
      now - ts < CACHE_TTL_MS →
      loadYield01 c hz now today cache01 fetchO =
        .ok ({ asOf := isoToday today, tenors := data, src := "live-cache" },
             cache01)) := by
  have hT := norm_type t ht
  have hC := norm_country c hc
  have hH := norm_h hz hh
  refine ⟨?_, ?_, ?_⟩
  · intro d hd
    unfold handler000
    rw [Option.getD_some, Option.getD_some, Option.getD_some, hT, hC, hH,
        if_neg (not_not_intro ⟨ht, hc, hh⟩)]
    simp only [hd]
  · intro hd
    unfold handler000
    rw [Option.getD_some, Option.getD_some, Option.getD_some, hT, hC, hH,
        if_neg (not_not_intro ⟨ht, hc, hh⟩)]
    simp only [hd]
  · intro cache01 ts data fetchO hlk hfresh
    unfold loadYield01
    rw [if_neg (by simpa using hc)]
    have hfr : cacheFresh01 cache01 ("y:" ++ c ++ ":" ++ hz) now = some data := by
      unfold cacheFresh01
      rw [hlk]
      exact if_pos hfresh
    simp only [hfr]

/-- C2 counterexample: a fresh part_001 cache hit is not returned with its
    src switched to `"cache"` — it comes back tagged `"live-cache"`. -/
theorem c2_counterexample_no_cache_tag :
    loadYield01 "DE" "1w" 100 ⟨2024, 7, 15⟩
        [("y:DE:1w", (0, [("5Y", 1)]))] (.error ()) =
      .ok ({ asOf := "2024-07-15", tenors := [("5Y", 1)], src := "live-cache" },
           [("y:DE:1w", (0, [("5Y", 1)]))]) ∧
    ("live-cache" : String) ≠ "cache" := by
  constructor
  · with_unfolding_all rfl
  · decide

/-- C2 witness: a concrete fresh hit returns the stored payload verbatim
    and leaves the cache unchanged. -/
theorem c2_witness :
    cacheFresh000
        [("yield:US:today", ((0 : Int), Data000.yieldD "2024-01-01" [("2Y", 1)]))]
        ("yield" ++ ":" ++ "US" ++ ":" ++ "today") 5 =
      some (Data000.yieldD "2024-01-01" [("2Y", 1)]) ∧
    handler000 (some "yield") (some "US") (some "today") 5 ⟨2024, 1, 2⟩
        [("yield:US:today", ((0 : Int), Data000.yieldD "2024-01-01" [("2Y", 1)]))]
        none none =
      ((200, .data (Data000.yieldD "2024-01-01" [("2Y", 1)])),
       [("yield:US:today", ((0 : Int), Data000.yieldD "2024-01-01" [("2Y", 1)]))]) := by
  have hfr : cacheFresh000
      [("yield:US:today", ((0 : Int), Data000.yieldD "2024-01-01" [("2Y", 1)]))]
      ("yield" ++ ":" ++ "US" ++ ":" ++ "today") 5 =
      some (Data000.yieldD "2024-01-01" [("2Y", 1)]) := by
    with_unfolding_all rfl
  exact ⟨hfr,
    (c2_cache_hit_verbatim_miss_overwrites "yield" "US" "today" (by decide)
      (by decide) (by decide) 5 ⟨2024, 1, 2⟩ _ none none).1 _ hfr⟩

theorem getLast?_mem_self {α : Type} {l : List α} {a : α}
    (h : l.getLast? = some a) : a ∈ l := by
  obtain ⟨hne, rfl⟩ := List.mem_getLast?_eq_getLast (Option.mem_def.mpr h)
  exact List.getLast_mem hne

theorem find?_eq_some_split {α : Type} (p : α → Bool) (l : List α) (a : α)
    (h : l.find? p = some a) :
    ∃ s t, l = s ++ a :: t ∧ p a = true ∧ ∀ x ∈ s, p x = false := by
  induction l with
  | nil => simp at h
  | cons c cs ih =>
    rw [List.find?_cons] at h
    cases hp : p c with
    | true =>
      rw [hp] at h
      cases h
      exact ⟨[], cs, rfl, hp, by simp⟩
    | false =>
      rw [hp] at h
      obtain ⟨s, t, rfl, hpa, hall⟩ := ih h
      refine ⟨c :: s, t, rfl, hpa, ?_⟩
      intro x hx
      rcases List.mem_cons.mp hx with rfl | hx
      · exact hp
      · exact hall x hx

theorem diffGeB_iff (last r : BRow) (want : ℚ)
    (h0 : (jsDateMs last.date).isSome) (h1 : (jsDateMs r.date).isSome) :
    diffGeB last r want = true ↔ olderByDays last r want := by
  obtain ⟨d0, hd0⟩ := Option.isSome_iff_exists.mp h0
  obtain ⟨d, hd⟩ := Option.isSome_iff_exists.mp h1
  unfold diffGeB olderByDays
  rw [hd0, hd]
  simp

/-- C4: for a non-empty dated series whose dates parse, the horizon
    resolver `pickRowByH` never fails and returns an element of the series;
    for `today` it is the last element; for `1w`/`1m` it is the first
    element, walking backward from the end, at least 7 (resp. 30) calendar
    days older than the last element — and the last element when no element
    is old enough. -/
theorem c4_pickRowByH_horizon_rule (rows : List BRow) (h : String) (last : BRow)
    (hlast : rows.getLast? = some last)
    (hh : h = "today" ∨ h = "1w" ∨ h = "1m")
    (hv : ∀ r ∈ rows, (jsDateMs r.date).isSome) :
    (∃ r, pickRowByH rows h = some r ∧ r ∈ rows) ∧
    (h = "today" → pickRowByH rows h = some last) ∧
    (∀ want : ℚ, (h = "1w" ∧ want = 7) ∨ (h = "1m" ∧ want = 30) →
      (∃ pre post r, rows = pre ++ r :: post ∧ pickRowByH rows h = some r ∧
        olderByDays last r want ∧ ∀ x ∈ post, ¬ olderByDays last x want) ∨
      (pickRowByH rows h = some last ∧
        ∀ x ∈ rows, ¬ olderByDays last x want)) := by
  have hlastMem : last ∈ rows := getLast?_mem_self hlast
  have hunf : pickRowByH rows h =
      if h = "today" then some last
      else
        match rows.reverse.find?
            (fun r => diffGeB last r (if h = "1w" then (7 : ℚ) else 30)) with
        | some r => some r
        | none => some last := by
    unfold pickRowByH
    rw [hlast]
  rw [hunf]
  by_cases ht : h = "today"
  · rw [if_pos ht]
    refine ⟨⟨last, rfl, hlastMem⟩, fun _ => rfl, ?_⟩
    intro want hw
    rcases hw with ⟨h1, -⟩ | ⟨h1, -⟩ <;> rw [ht] at h1 <;> simp at h1
  · rw [if_neg ht]
    have hwant : ∀ want : ℚ, (h = "1w" ∧ want = 7) ∨ (h = "1m" ∧ want = 30) →
        (if h = "1w" then (7 : ℚ) else 30) = want := by
      intro want hw
      rcases hw with ⟨rfl, rfl⟩ | ⟨rfl, rfl⟩
      · rw [if_pos rfl]
      · rw [if_neg (by decide)]
    cases hfind : rows.reverse.find?
        (fun r => diffGeB last r (if h = "1w" then (7 : ℚ) else 30)) with
    | none =>
      have hnone := List.find?_eq_none.mp hfind
      refine ⟨⟨last, rfl, hlastMem⟩, fun habs => absurd habs ht, ?_⟩
      intro want hw
      refine Or.inr ⟨rfl, ?_⟩
      intro x hx hold
      have := hnone x (List.mem_reverse.mpr hx)
      rw [hwant want hw] at this
      exact this ((diffGeB_iff last x want (hv last hlastMem) (hv x hx)).mpr hold)
    | some r =>
      obtain ⟨s, t, hdec, hpr, hall⟩ := find?_eq_some_split _ _ _ hfind
      have hrowseq : rows = t.reverse ++ r :: s.reverse := by
        have : rows.reverse.reverse = (s ++ r :: t).reverse := by rw [hdec]
        simpa using this
      have hrmem : r ∈ rows := by
        rw [hrowseq]
        exact List.mem_append_right _ (List.mem_cons_self r _)
      refine ⟨⟨r, rfl, hrmem⟩, fun habs => absurd habs ht, ?_⟩
      intro want hw
      refine Or.inl ⟨t.reverse, s.reverse, r, hrowseq, rfl, ?_, ?_⟩
      · rw [hwant want hw] at hpr
        exact (diffGeB_iff last r want (hv last hlastMem) (hv r hrmem)).mp hpr
      · intro x hx hold
        have hxrows : x ∈ rows := by
          rw [hrowseq]
          exact List.mem_append_right _ (List.mem_cons_of_mem r
            (List.mem_reverse.mpr (List.mem_reverse.mp hx)))
        have := hall x (List.mem_reverse.mp hx)
        rw [hwant want hw] at this
        rw [(diffGeB_iff last x want (hv last hlastMem) (hv x hxrows)).mpr hold]
          at this
        exact Bool.true_eq_false.mp this

/-- C4 witness: on the spec's example series the resolver picks the 40-day
    old row for `1m` and the last row for `today`. -/
theorem c4_witness :
    (∃ r, pickRowByH rows4 "1m" = some r ∧ r ∈ rows4) ∧
    pickRowByH rows4 "1m" = some ⟨"2024-01-01", some 1.0⟩ ∧
    pickRowByH rows4 "today" = some ⟨"2024-02-10", some 1.3⟩ := by
  refine ⟨(c4_pickRowByH_horizon_rule rows4 "1m" ⟨"2024-02-10", some 1.3⟩
    (by with_unfolding_all rfl) (Or.inr (Or.inr rfl)) ?_).1, ?_, ?_⟩
  · intro r hr
    fin_cases hr <;> with_unfolding_all rfl
  · with_unfolding_all rfl
  · with_unfolding_all rfl

/-- C7 (amended): a market.js yield record's tenor mapping holds exactly
    the successfully extracted tenors — unextracted tenors are omitted, not
    null; the part_003 DE provider instead emits the full 11-key skeleton
    with null for missing tenors, but also appends a 12th key `15Y` that is
    outside the enumeration. -/
theorem c7_tenor_mapping_key_sets :
    (∀ (html : List Char) (code : String),
      code ∈ (parseWGBYields html).tenors.map Prod.fst ↔
        ∃ lbl, (code, lbl) ∈ TENOR_LABEL ∧
          (findNearestPercent html lbl).isSome = true) ∧
    (∀ pick : String → Option BRow,
      (deTenorMap pick).map Prod.fst =
        ["1M", "3M", "6M", "1Y", "2Y", "3Y", "5Y", "7Y", "10Y", "20Y",
         "30Y", "15Y"]) ∧
    (∀ (pick : String → Option BRow) (code : String),
      code ∈ (["1M", "3M", "6M", "1Y", "3Y", "20Y"] : List String) →
      List.lookup code (deTenorMap pick) = some none) := by
  refine ⟨?_, ?_, ?_⟩
  · intro html code
    constructor
    · intro hmem
      obtain ⟨⟨c, v⟩, hmem2, hc⟩ := List.mem_map.mp hmem
      obtain ⟨⟨c', lbl⟩, hL, hf⟩ := List.mem_filterMap.mp hmem2
      obtain ⟨w, hw, heq⟩ := Option.map_eq_some'.mp hf
      obtain ⟨rfl, -⟩ := Prod.mk.injEq .. ▸ (by
        exact Prod.mk.inj heq : c' = c ∧ w = v)
      cases hc
      exact ⟨lbl, hL, by rw [hw]; rfl⟩
    · rintro ⟨lbl, hL, hsome⟩
      obtain ⟨v, hv⟩ := Option.isSome_iff_exists.mp hsome
      refine List.mem_map.mpr ⟨(code, v), ?_, rfl⟩
      exact List.mem_filterMap.mpr ⟨(code, lbl), hL, by rw [hv]; rfl⟩
  · intro pick
    rfl
  · intro pick code hcode
    fin_cases hcode <;> rfl

/-- C7 counterexample: a live market.js record whose trust predicate
    passed, in which the enumerated tenor `10Y` was not extracted and is
    absent from the mapping instead of being null. -/
theorem c7_counterexample_omitted_key :
    (parseWGBYields ex7doc).ok = true ∧
    ("10Y", "10 Years") ∈ TENOR_LABEL ∧
    List.lookup "10Y" (parseWGBYields ex7doc).tenors = none ∧
    "10Y" ∉ (parseWGBYields ex7doc).tenors.map Prod.fst := by
  refine ⟨?_, by decide, ?_, ?_⟩
  · with_unfolding_all rfl
  · with_unfolding_all rfl
  · intro hmem
    have : (parseWGBYields ex7doc).tenors.map Prod.fst
        = ["1M", "1Y", "2Y", "5Y"] := by with_unfolding_all rfl
    rw [this] at hmem
    simp at hmem

/-- C7 witness: the DE skeleton at a concrete pick: the key list is the
    full enumeration plus `15Y`, and the never-assigned `3Y` is null. -/
theorem c7_witness :
    (deTenorMap (fun _ => none)).map Prod.fst =
      ["1M", "3M", "6M", "1Y", "2Y", "3Y", "5Y", "7Y", "10Y", "20Y",
       "30Y", "15Y"] ∧
    List.lookup "3Y" (deTenorMap (fun _ => none)) = some none := by
  exact ⟨c7_tenor_mapping_key_sets.2.1 (fun _ => none),
    c7_tenor_mapping_key_sets.2.2 (fun _ => none) "3Y" (by decide)⟩

/-- C8: `parseBOE_TT` raises instead of returning not-found: on a document
    whose date cell is `aa/bb/cc`, `dateFromBoE` calls `.toISOString()` on
    an Invalid Date, which raises RangeError (uncaught in the extractor);
    with no `Date` header at all, `lines[-1]` is `undefined` and feeding it
    to `splitCSVLine` raises TypeError. On a well-formed document the same
    extractor succeeds. -/
theorem c8_parseBOE_TT_raises_on_malformed :
    parseBOE_TT boeFailDoc = .error .rangeErr ∧
    parseBOE_TT "foo,1\nbar,2" = .error .typeErr ∧
    parseBOE_TT boeOkDoc =
      .ok ⟨some "2024-01-12", [⟨"DQT", "DQT", [⟨"2024-01-12", some 3.5⟩]⟩]⟩ := by
  refine ⟨?_, ?_, ?_⟩
  · with_unfolding_all rfl
  · with_unfolding_all rfl
  · with_unfolding_all rfl

end Spec2Proof
